import Mathlib

/-!
Verification development for the solana-coin-bot ingestion pipeline,
scheduler and trend detector.

Each definition below is a shallow embedding of a function or code path of
the repository (file and symbol given in its doc comment).  Machine floats
of the source are modelled as rationals, timestamps as naturals, and the
network collaborators (DexScreener feed, RugCheck, Telegram) as explicit
oracle inputs.  Strings with numeric content are modelled concretely as
character lists so that the parsing behaviour of the source can be
evaluated on closed inputs.
-/

set_option maxRecDepth 8000

/-! ## Metric normalizer: `app/tasks/fetch_and_store.py::safe_float` -/

/-- Python `str.strip` removes these whitespace characters (ASCII subset). -/
def isPySpace (c : Char) : Bool :=
  c == ' ' || c == '\t' || c == '\n' || c == '\r' || c == '\x0b' || c == '\x0c'

/-- `value.strip()` on a character list. -/
def pyStrip (l : List Char) : List Char :=
  ((l.dropWhile isPySpace).reverse.dropWhile isPySpace).reverse

/-- `str.lower()` on one character (ASCII range, which covers the suffix
letters `K`/`M`/`B` and the exponent marker `E` that the source cares about). -/
def pyLower (c : Char) : Char := c.toLower

/-- ASCII digit test. -/
def isAsciiDigit (c : Char) : Bool := 48 ≤ c.toNat && c.toNat ≤ 57

/-- Numeric value of a digit string (most significant first). -/
def natOfDigits (l : List Char) : Nat :=
  l.foldl (fun a c => a * 10 + (c.toNat - 48)) 0

/-- All characters are ASCII digits. -/
def allDigits (l : List Char) : Bool := l.all isAsciiDigit

/-- Parse the mantissa part of a `decimal.Decimal` literal:
`digits [. digits]` where at least one digit is present on either side of
the point (`"1."` and `".5"` are accepted, `"."` and `""` are not). -/
def parseMantissa (l : List Char) : Option ℚ :=
  let s := l.span (fun c => c != '.')
  match s.2 with
  | [] => if !s.1.isEmpty && allDigits s.1 then some (natOfDigits s.1) else Option.none
  | _ :: fp =>
    if (!s.1.isEmpty || !fp.isEmpty) && allDigits s.1 && allDigits fp then
      some ((natOfDigits s.1 : ℚ) + (natOfDigits fp : ℚ) / (10 : ℚ) ^ fp.length)
    else Option.none

/-- Parse the exponent part after the `e` marker: `[+|-] digits`. -/
def parseExponent (l : List Char) : Option ℤ :=
  let p : ℤ × List Char :=
    match l with
    | '+' :: r => (1, r)
    | '-' :: r => (-1, r)
    | r => (1, r)
  if !p.2.isEmpty && allDigits p.2 then some (p.1 * natOfDigits p.2) else Option.none

/-- Model of `decimal.Decimal(s)` applied to an already-lowercased string,
restricted to finite numeric literals
`[ws] [+|-] digits [. digits] [e [+|-] digits] [ws]` over the rationals.
(The special spellings `infinity`/`nan` and digit-group underscores are
outside the rational model; they cannot be produced by the metric fields
this normalizer is applied to.)  Returns `none` where `Decimal` raises
`InvalidOperation`. -/
def decimalParse (l : List Char) : Option ℚ :=
  let l' := pyStrip l
  let p : ℚ × List Char :=
    match l' with
    | '+' :: r => (1, r)
    | '-' :: r => (-1, r)
    | r => (1, r)
  let s := p.2.span (fun c => c != 'e')
  match s.2 with
  | [] => (parseMantissa s.1).map (fun m => p.1 * m)
  | _ :: expPart =>
    match parseMantissa s.1, parseExponent expPart with
    | some m, some e => some (p.1 * m * (10 : ℚ) ^ e)
    | _, _ => Option.none

/-- A Python value reaching `safe_float`: `None`, a number (int/float —
`float(Decimal(str(v)))` is the identity on these, modelled exactly by the
rational), or a string.  Any other object makes `Decimal(str(value))`
raise, i.e. behaves as an unparseable string. -/
inductive PyValue where
  | none
  | num (q : ℚ)
  | str (s : String)
deriving DecidableEq

/-- `app/tasks/fetch_and_store.py::safe_float` (lines 32-57): convert a raw
value to a number; strings are stripped and lowercased, a trailing
`k`/`m`/`b` multiplies the `Decimal`-parsed prefix by 1e3/1e6/1e9, any
parse failure yields the caller-supplied `default`. -/
def safe_float (value : PyValue) (default : Option ℚ) : Option ℚ :=
  match value with
  | .none => default
  | .num q => some q
  | .str s =>
    let v := (pyStrip s.data).map pyLower
    match v.getLast? with
    | some 'k' =>
      match decimalParse v.dropLast with
      | some q => some (q * 1000)
      | Option.none => default
    | some 'm' =>
      match decimalParse v.dropLast with
      | some q => some (q * 1000000)
      | Option.none => default
    | some 'b' =>
      match decimalParse v.dropLast with
      | some q => some (q * 1000000000)
      | Option.none => default
    | _ =>
      match decimalParse v with
      | some q => some q
      | Option.none => default

/-! ## Filter evaluator: `app/tasks/fetch_and_store.py::passes_filters` -/

/-- The `filters` section of the configuration dictionary.  A field holds
`Option.none` when the key is absent; `passes_filters` then falls back to
the source defaults `0` (minima) and `float(inf)` (maximum price, modelled
by `max_price_usd = Option.none` meaning unbounded). -/
structure Filters where
  min_price_usd : Option ℚ := Option.none
  max_price_usd : Option ℚ := Option.none
  min_volume_usd : Option ℚ := Option.none
  min_liquidity_usd : Option ℚ := Option.none
deriving DecidableEq

/-- `app/tasks/fetch_and_store.py::passes_filters` (lines 393-418):
`min_price <= price <= max_price` and `volume >= min_volume` and
`liquidity >= min_liquidity`, with the defaults above for absent keys. -/
def passes_filters (price_usd volume_usd liquidity_usd : ℚ) (filters : Filters) : Bool :=
  let min_price := filters.min_price_usd.getD 0
  let priceOk :=
    decide (min_price ≤ price_usd) &&
      (match filters.max_price_usd with
       | some mp => decide (price_usd ≤ mp)
       | Option.none => true)
  let volumeOk := decide (filters.min_volume_usd.getD 0 ≤ volume_usd)
  let liquidityOk := decide (filters.min_liquidity_usd.getD 0 ≤ liquidity_usd)
  priceOk && volumeOk && liquidityOk

/-- The required-metrics pre-check of the pipeline
(`app/tasks/fetch_and_store.py` line 236):
`all([price_usd, volume_usd, liquidity_usd])` — a metric equal to `0.0` is
falsy in Python, so a zero metric fails the check regardless of any
configured bound. -/
def all_required_metrics (price_usd volume_usd liquidity_usd : ℚ) : Bool :=
  decide (price_usd ≠ 0) && decide (volume_usd ≠ 0) && decide (liquidity_usd ≠ 0)

/-! ## Risk assessor: `app/services/rugcheck_service.py` -/

/-- `RiskAssessment` (rugcheck_service.py lines 10-17), restricted to the
fields the pipeline consumes.  `risks`/`token_program`/`token_type` are
carried opaquely by the source and do not influence any claim. -/
structure RiskAssessment where
  is_safe : Bool
  score : ℤ
deriving DecidableEq

/-- `RiskAssessment.get_risk_level` (rugcheck_service.py lines 39-48). -/
def get_risk_level (score : ℤ) : String :=
  if score < 500 then "LOW"
  else if score < 750 then "MEDIUM"
  else if score < 1000 then "HIGH"
  else "CRITICAL"

/-- `RugcheckService.DEFAULT_MAX_SCORE` (rugcheck_service.py line 81). -/
def DEFAULT_MAX_SCORE : ℤ := 1000

/-- `RugcheckService.__init__` resolves `max_risk_score or DEFAULT_MAX_SCORE`
(rugcheck_service.py line 96); Python `or` also replaces a configured `0`
(falsy) by the default. -/
def resolve_max_risk_score (configured : Option ℤ) : ℤ :=
  match configured with
  | some v => if v = 0 then DEFAULT_MAX_SCORE else v
  | Option.none => DEFAULT_MAX_SCORE

/-- Pure core of `RugcheckService.assess_token_risk` (rugcheck_service.py
lines 133-144) after a successful HTTP round trip: the payload score is
extracted (`None` raises `RugcheckError`) and the assessment is built with
`is_safe = score <= max_risk_score`. -/
def assess_token_risk (payload_score : Option ℤ) (max_risk_score : ℤ) :
    Except String RiskAssessment :=
  match payload_score with
  | Option.none => .error "Missing risk score in API response"
  | some s => .ok { is_safe := decide (s ≤ max_risk_score), score := s }

/-! ## Scheduler: `app/tasks/scheduler.py` -/

/-- `SchedulerHealth` (scheduler.py lines 18-26); wall-clock times are
abstracted to naturals. -/
structure SchedulerHealth where
  last_successful_run : Option Nat := Option.none
  consecutive_failures : Nat := 0
  total_failures : Nat := 0
  last_error : Option String := Option.none
deriving DecidableEq

/-- `SchedulerHealth.record_success` (scheduler.py lines 28-31). -/
def SchedulerHealth.record_success (h : SchedulerHealth) (now : Nat) : SchedulerHealth :=
  { h with last_successful_run := some now, consecutive_failures := 0 }

/-- `SchedulerHealth.record_failure` (scheduler.py lines 33-37). -/
def SchedulerHealth.record_failure (h : SchedulerHealth) (error : String) : SchedulerHealth :=
  { h with consecutive_failures := h.consecutive_failures + 1,
           total_failures := h.total_failures + 1,
           last_error := some error }

/-- The two sub-tasks of one scheduler cycle. -/
inductive SubTask where
  | fetchAndStore
  | analysis
deriving DecidableEq

/-- Environment of one `_run_cycle` call: whether each wrapped task body
raises.  `TaskRunner.run_fetch_and_store` / `run_analysis` catch any
exception of their body and re-raise it as `SchedulerError`
(scheduler.py lines 122-131 and 133-162). -/
structure CycleEnv where
  fetchFails : Bool
  analysisFails : Bool
deriving DecidableEq

/-- `Scheduler._run_cycle` (scheduler.py lines 255-258): run
`run_fetch_and_store`, then `run_analysis`, sequentially in one `try`-free
body.  Returns the list of sub-tasks that were attempted and whether a
`SchedulerError` escapes the call.  A failing first sub-task raises before
the second is reached. -/
def run_cycle (env : CycleEnv) : List SubTask × Bool :=
  if env.fetchFails then ([.fetchAndStore], true)
  else ([.fetchAndStore, .analysis], env.analysisFails)

/-- Scheduler constructor arguments (scheduler.py lines 181-191) with their
source defaults. -/
structure SchedulerConfig where
  interval_sec : Nat := 600
  max_consecutive_failures : Nat := 3
  error_cooldown_sec : Nat := 30
deriving DecidableEq

/-- Externally visible actions of one loop iteration of `Scheduler.run`. -/
inductive SchedAction where
  | criticalNotify
  | unexpectedNotify
  | backoffSleep (sec : Nat)
  | intervalSleep (sec : Nat)
deriving DecidableEq

/-- Outcome of the `_run_cycle` call seen by the `while` loop of
`Scheduler.run`. -/
inductive CycleOutcome where
  | success
  | schedulerError (msg : String)
  | unexpected (msg : String)

/-- One iteration of the `while self.health.is_running` loop of
`Scheduler.run` (scheduler.py lines 218-246): on success record it; on a
`SchedulerError` record the failure and, once
`consecutive_failures >= max_consecutive_failures`, send the critical
notification and back off for
`error_cooldown_sec * 2 ** (consecutive_failures - 1)` seconds; on any
other exception record it and notify.  Every branch then sleeps
`interval_sec` before the next cycle. -/
def scheduler_iteration (cfg : SchedulerConfig) (h : SchedulerHealth) (now : Nat)
    (outcome : CycleOutcome) : SchedulerHealth × List SchedAction :=
  match outcome with
  | .success => (h.record_success now, [.intervalSleep cfg.interval_sec])
  | .schedulerError e =>
    let h' := h.record_failure e
    if cfg.max_consecutive_failures ≤ h'.consecutive_failures then
      (h', [.criticalNotify,
            .backoffSleep (cfg.error_cooldown_sec * 2 ^ (h'.consecutive_failures - 1)),
            .intervalSleep cfg.interval_sec])
    else
      (h', [.intervalSleep cfg.interval_sec])
  | .unexpected e =>
    (h.record_failure e, [.unexpectedNotify, .intervalSleep cfg.interval_sec])

/-! ## Ingestion pipeline: `app/tasks/fetch_and_store.py::fetch_and_store_tokens` -/

/-- A trading pair as consumed by the pipeline.
`liquidityUsd` is the result of `float(liquidity.get("usd", 0) or 0)` when
`liquidity` is a dict and the value converts: `some q` (a missing `usd`
key yields `some 0`); `Option.none` models "the `liquidity` field is not a
dict, or `float` raises", which makes the best-pair loop skip the pair.
`priceUsd` is the raw `priceUsd` field (`Option.none` = key absent, the
source then uses the default string `"0"`).  `volumeH24` is the result of
`float(volume.get("h24", 0) ...)`: `Option.none` models a raising
conversion, a missing field yields `some 0`. -/
structure Pair where
  liquidityUsd : Option ℚ
  priceUsd : Option PyValue := Option.none
  volumeH24 : Option ℚ := some 0
  baseName : Option String := Option.none
  baseSymbol : Option String := Option.none
deriving DecidableEq

/-- The best-pair selection loop (fetch_and_store.py lines 176-195):
`max_liquidity` starts at `0`, and a pair becomes the best one only when
its parsed liquidity is strictly greater than the running maximum, so the
first pair reaching the maximum wins ties and a pair whose liquidity is
`0` (or unparseable) is never selected. -/
def bestPairStep (acc : Option Pair × ℚ) (p : Pair) : Option Pair × ℚ :=
  match p.liquidityUsd with
  | Option.none => acc
  | some v => if acc.2 < v then (some p, v) else acc

def selectBestPair (pairs : List Pair) : Option Pair :=
  (pairs.foldl bestPairStep ((Option.none : Option Pair), (0 : ℚ))).1

/-- `TokenProfile` (dexscreener_client.py lines 20-32), restricted to the
fields the pipeline reads. -/
structure TokenProfile where
  token_address : String
  chain_id : String
  name : Option String := Option.none
  symbol : Option String := Option.none
  url : Option String := Option.none
deriving DecidableEq

/-- A persisted `TokenSnapshot` row (app/database/models.py), restricted to
the fields the pipeline and the claims touch; `risk_data` is modelled by
its `score` entry, `timestamp` by a natural. -/
structure TokenSnapshotRow where
  token_address : String
  chain_id : String
  token_name : Option String
  token_symbol : Option String
  price_usd : ℚ
  volume_usd : ℚ
  liquidity_usd : ℚ
  risk_score : ℤ
  timestamp : Nat
deriving DecidableEq

/-- Application configuration as consumed by `fetch_and_store_tokens`:
the filter section, whether the `rugcheck` section is present (and its
maximum score), and whether a Telegram notifier was built. -/
structure AppConfig where
  filters : Filters := {}
  rugcheck_configured : Bool := true
  max_risk_score : ℤ := DEFAULT_MAX_SCORE
  telegram_configured : Bool := true

/-- The external collaborators of one pipeline run, as oracles:
`pairsFor chain address` is what `DexscreenerClient.get_token_pairs`
returns (it returns `[]` on any error), `riskScore address` is the score
of the RugCheck payload (`Option.none` models a raised `RugcheckError`),
and `now` is the wall clock used for row timestamps. -/
structure FeedOracle where
  pairsFor : String → String → List Pair
  riskScore : String → Option ℤ
  now : Nat

/-- The per-asset rejection reasons logged by the pipeline. -/
inductive RejectReason where
  | noPairs
  | noValidPairs
  | metricsConversion
  | missingMetrics
  | failedFilters
  | failedRugcheck
  | rugcheckError
  | rugcheckNotConfigured
deriving DecidableEq

/-- The log message of each rejection (fetch_and_store.py lines 172, 193,
231, 238, 247, 261, 276, 281). -/
def RejectReason.message : RejectReason → String
  | .noPairs => "No pairs found"
  | .noValidPairs => "No valid pairs with liquidity"
  | .metricsConversion => "Error converting metrics"
  | .missingMetrics => "Missing required metrics"
  | .failedFilters => "Did not pass filters"
  | .failedRugcheck => "Failed rug check"
  | .rugcheckError => "Unable to assess risk"
  | .rugcheckNotConfigured => "Rugcheck service not configured"

/-- How one profile was tallied (fetch_and_store.py counters
`tokens_filtered` / `tokens_stored` / `tokens_updated`). -/
inductive StepResult where
  | filtered (reason : RejectReason)
  | stored
  | updated
deriving DecidableEq

/-- Python truthiness of an optional string (`None` and `""` are falsy). -/
def strTruthy : Option String → Bool
  | Option.none => false
  | some s => !s.isEmpty

/-- The name/symbol back-fill (fetch_and_store.py lines 204-210):
`if not profile.name and token_name: profile.name = token_name`. -/
def backfill (original fromPair : Option String) : Option String :=
  if !strTruthy original && strTruthy fromPair then fromPair else original

/-- `price_usd = safe_float(best_pair.get("priceUsd", "0"), 0)`
(fetch_and_store.py lines 213-214). -/
def extract_price_usd (pair : Pair) : ℚ :=
  (safe_float (pair.priceUsd.getD (.str "0")) (some 0)).getD 0

/-- `liquidity_usd = float(liquidity.get("usd", 0) ...)` on the selected
pair (fetch_and_store.py lines 218-219); the selected pair always carries
a parsed liquidity. -/
def extract_liquidity_usd (pair : Pair) : ℚ := pair.liquidityUsd.getD 0

/-- Everything the pipeline knows about an accepted asset when it reaches
the upsert step (fetch_and_store.py line 285). -/
structure AcceptedData where
  price_usd : ℚ
  volume_usd : ℚ
  liquidity_usd : ℚ
  risk_score : ℤ
  baseName : Option String
  baseSymbol : Option String
deriving DecidableEq

/-- The per-asset decision chain of `fetch_and_store_tokens`
(fetch_and_store.py lines 167-283), in source order: fetch pairs (reject
when empty), select the best pair (reject when none has positive parsed
liquidity), convert metrics (reject when the volume conversion raises),
the required-metrics pre-check, the configured filters, and the rug check
(reject when unconfigured, when the call raises, or when the assessment is
unsafe).  The decision depends only on the chain/address pair — the
profile's other fields and the database are consulted only at the upsert
step, which is modelled separately in `processProfile`. -/
def evaluateCore (cfg : AppConfig) (orc : FeedOracle) (chain_id token_address : String) :
    Except RejectReason AcceptedData :=
  let pairs := orc.pairsFor chain_id token_address
  if pairs.isEmpty then .error .noPairs
  else
    match selectBestPair pairs with
    | Option.none => .error .noValidPairs
    | some best =>
      match best.volumeH24 with
      | Option.none => .error .metricsConversion
      | some volume_usd =>
        let price_usd := extract_price_usd best
        let liquidity_usd := extract_liquidity_usd best
        if !all_required_metrics price_usd volume_usd liquidity_usd then
          .error .missingMetrics
        else if !passes_filters price_usd volume_usd liquidity_usd cfg.filters then
          .error .failedFilters
        else if !cfg.rugcheck_configured then
          .error .rugcheckNotConfigured
        else
          match orc.riskScore token_address with
          | Option.none => .error .rugcheckError
          | some score =>
            if !decide (score ≤ cfg.max_risk_score) then .error .failedRugcheck
            else .ok { price_usd := price_usd, volume_usd := volume_usd,
                       liquidity_usd := liquidity_usd, risk_score := score,
                       baseName := best.baseName, baseSymbol := best.baseSymbol }

/-- Row match used by both the dedup query (fetch_and_store.py lines
154-161) and the update: same `token_address` and same `chain_id`. -/
def rowMatches (p : TokenProfile) (r : TokenSnapshotRow) : Bool :=
  r.token_address == p.token_address && r.chain_id == p.chain_id

/-- `session.query(TokenSnapshot).filter(...).first()`. -/
def findExisting (db : List TokenSnapshotRow) (p : TokenProfile) : Option TokenSnapshotRow :=
  db.find? (rowMatches p)

/-- The in-place update of the existing row (fetch_and_store.py lines
286-293): price, volume, liquidity, risk data and timestamp are
overwritten; identity and name fields are untouched. -/
def updateRow (r : TokenSnapshotRow) (d : AcceptedData) (now : Nat) : TokenSnapshotRow :=
  { r with price_usd := d.price_usd, volume_usd := d.volume_usd,
           liquidity_usd := d.liquidity_usd, risk_score := d.risk_score,
           timestamp := now }

/-- Apply `f` to the first row matching the profile (the ORM mutates the
row returned by `.first()`). -/
def replaceFirst (db : List TokenSnapshotRow) (p : TokenProfile)
    (f : TokenSnapshotRow → TokenSnapshotRow) : List TokenSnapshotRow :=
  match db with
  | [] => []
  | r :: rest => if rowMatches p r then f r :: rest else r :: replaceFirst rest p f

/-- `TokenSnapshot.from_token_profile` (models.py lines 64-108) for a new
row, after the profile's name/symbol were back-filled from the selected
pair (fetch_and_store.py lines 204-210). -/
def newRow (p : TokenProfile) (d : AcceptedData) (now : Nat) : TokenSnapshotRow :=
  { token_address := p.token_address, chain_id := p.chain_id,
    token_name := backfill p.name d.baseName,
    token_symbol := backfill p.symbol d.baseSymbol,
    price_usd := d.price_usd, volume_usd := d.volume_usd,
    liquidity_usd := d.liquidity_usd, risk_score := d.risk_score,
    timestamp := now }

/-- A "New Token Alert" Telegram message, sent only on the insert branch
(fetch_and_store.py lines 324-363). -/
structure NewTokenAlert where
  token_address : String
  chain_id : String
deriving DecidableEq

/-- Processing of one profile inside the `for profile in profiles` loop of
`fetch_and_store_tokens` (lines 142-371): the decision chain of
`evaluateCore`, then the upsert — update the existing row in place without
notifying, or insert a new row and send the new-token alert when a
notifier is configured. -/
def processProfile (cfg : AppConfig) (orc : FeedOracle) (db : List TokenSnapshotRow)
    (p : TokenProfile) : StepResult × List TokenSnapshotRow × List NewTokenAlert :=
  match evaluateCore cfg orc p.chain_id p.token_address with
  | .error reason => (.filtered reason, db, [])
  | .ok d =>
    match findExisting db p with
    | some _ => (.updated, replaceFirst db p (fun r => updateRow r d orc.now), [])
    | Option.none =>
      (.stored, db ++ [newRow p d orc.now],
       if cfg.telegram_configured then [{ token_address := p.token_address,
                                          chain_id := p.chain_id }] else [])

/-- The per-cycle counters of `fetch_and_store_tokens` (lines 136-139). -/
structure CycleCounters where
  processed : Nat := 0
  filtered : Nat := 0
  stored : Nat := 0
  updated : Nat := 0
deriving DecidableEq

/-- Tally one profile: `tokens_processed` is incremented for every profile,
then exactly one of the three buckets. -/
def CycleCounters.add (c : CycleCounters) (r : StepResult) : CycleCounters :=
  match r with
  | .filtered _ => { c with processed := c.processed + 1, filtered := c.filtered + 1 }
  | .stored => { c with processed := c.processed + 1, stored := c.stored + 1 }
  | .updated => { c with processed := c.processed + 1, updated := c.updated + 1 }

/-- One full pipeline run (`fetch_and_store_tokens`, lines 130-378) over
the profiles returned by the feed, threading the database and collecting
the new-token alerts in order. -/
def pipelineStep (cfg : AppConfig) (orc : FeedOracle)
    (acc : CycleCounters × List TokenSnapshotRow × List NewTokenAlert)
    (p : TokenProfile) : CycleCounters × List TokenSnapshotRow × List NewTokenAlert :=
  let r := processProfile cfg orc acc.2.1 p
  (acc.1.add r.1, r.2.1, acc.2.2 ++ r.2.2)

def fetch_and_store_tokens (cfg : AppConfig) (orc : FeedOracle)
    (db : List TokenSnapshotRow) (profiles : List TokenProfile) :
    CycleCounters × List TokenSnapshotRow × List NewTokenAlert :=
  profiles.foldl (pipelineStep cfg orc)
    (({} : CycleCounters), db, ([] : List NewTokenAlert))

/-! ## Trend detector: `app/services/analysis.py::analyze_pumped_tokens` -/

/-- A snapshot row as read back by the trend detector; metric columns are
nullable floats, modelled as optional rationals. -/
structure SnapshotRec where
  token_address : String
  chain_id : String
  price_usd : Option ℚ
  volume_usd : Option ℚ
  liquidity_usd : Option ℚ := Option.none
  risk_score : Option ℤ := Option.none
  timestamp : Nat
deriving DecidableEq

/-- Python truthiness of a nullable float (`None` and `0.0` are falsy). -/
def qTruthy : Option ℚ → Bool
  | Option.none => false
  | some q => decide (q ≠ 0)

/-- An element of the list returned by `analyze_pumped_tokens`
(analysis.py lines 80-96), restricted to the fields the claims touch. -/
structure PumpedEntry where
  token_address : String
  chain_id : String
  initial_price : ℚ
  current_price : ℚ
  price_change_percent : ℚ
  volume_usd : ℚ
deriving DecidableEq

/-- The per-token body of the analysis loop (analysis.py lines 46-96):
skip a history with fewer than two snapshots; compare the first and the
last snapshot of the (timestamp-ordered) history; skip when
`first.price_usd`, `last.price_usd` or `last.volume_usd` is falsy
(`None` or `0.0`); flag when the percent change reaches
`min_price_increase_percent` and the last volume reaches
`min_volume_usd`. -/
def entryOfHistory (token_address : String) (history : List SnapshotRec)
    (min_price_increase_percent min_volume_usd : ℚ) : Option PumpedEntry :=
  if history.length < 2 then Option.none
  else
    match history.head?, history.getLast? with
    | some first, some lastS =>
      if qTruthy first.price_usd && qTruthy lastS.price_usd && qTruthy lastS.volume_usd then
        let fp := first.price_usd.getD 0
        let lp := lastS.price_usd.getD 0
        let lv := lastS.volume_usd.getD 0
        let change := (lp - fp) / fp * 100
        if decide (min_price_increase_percent ≤ change) && decide (min_volume_usd ≤ lv) then
          some { token_address := token_address, chain_id := lastS.chain_id,
                 initial_price := fp, current_price := lp,
                 price_change_percent := change, volume_usd := lv }
        else Option.none
      else Option.none
    | _, _ => Option.none

/-- The keys of the grouping dict `token_snapshots` (analysis.py lines
38-42) in insertion order: the distinct `token_address` values in order of
first appearance.  The key is the address alone — `chain_id` is not part
of it. -/
def groupKeysStep (ks : List String) (s : SnapshotRec) : List String :=
  if s.token_address ∈ ks then ks else ks ++ [s.token_address]

def groupKeys (snaps : List SnapshotRec) : List String :=
  snaps.foldl groupKeysStep []

/-- The group stored under one key: the snapshots with that address, in
input (timestamp) order — appending into the dict preserves order. -/
def groupFor (snaps : List SnapshotRec) (token_address : String) : List SnapshotRec :=
  snaps.filter (fun s => s.token_address == token_address)

/-- Stable insertion into a list sorted by `price_change_percent`
descending; an element is placed before the first strictly smaller key, so
earlier elements win ties — the behaviour of Python `sorted(...,
reverse=True)`, which is stable. -/
def insertDesc (e : PumpedEntry) : List PumpedEntry → List PumpedEntry
  | [] => [e]
  | x :: xs =>
    if x.price_change_percent ≤ e.price_change_percent then e :: x :: xs
    else x :: insertDesc e xs

/-- `sorted(pumped_tokens, key=..., reverse=True)` (analysis.py lines
98-102). -/
def sortByChangeDesc (l : List PumpedEntry) : List PumpedEntry :=
  l.foldr insertDesc []

/-- `app/services/analysis.py::analyze_pumped_tokens` (lines 12-102) on
the already-windowed, timestamp-ascending snapshot list: group by
`token_address`, analyze each group, and return the flagged entries
sorted by `price_change_percent` descending. -/
def analyze_pumped_tokens (snaps : List SnapshotRec)
    (min_price_increase_percent min_volume_usd : ℚ) : List PumpedEntry :=
  sortByChangeDesc
    ((groupKeys snaps).filterMap
      (fun t => entryOfHistory t (groupFor snaps t)
        min_price_increase_percent min_volume_usd))

/-- A profile is accepted by the decision chain (it reaches the upsert
step of the pipeline). -/
def acceptedProfile (cfg : AppConfig) (orc : FeedOracle) (p : TokenProfile) : Bool :=
  match evaluateCore cfg orc p.chain_id p.token_address with
  | .ok _ => true
  | .error _ => false

/-- The database already reflects this cycle for a profile: whenever the
profile is accepted with data `d`, the first matching row exists and is a
fixed point of the in-place update with `d` at the oracle clock.  A second
pipeline run over such a database leaves it unchanged. -/
def settledFor (cfg : AppConfig) (orc : FeedOracle) (db : List TokenSnapshotRow)
    (p : TokenProfile) : Prop :=
  ∀ d, evaluateCore cfg orc p.chain_id p.token_address = .ok d →
    ∃ r, findExisting db p = some r ∧ updateRow r d orc.now = r

/-! ## Theorems -/

/-- C1: counterexample.  In a cycle whose Ingestion Pipeline sub-task
fails, `_run_cycle` raises before `run_analysis` is reached, so the Trend
Detector sub-task is not attempted in that cycle — refuting the claim that
both sub-tasks are attempted and caught independently. -/
theorem C1_counterexample :
    SubTask.analysis ∉ (run_cycle { fetchFails := true, analysisFails := false }).1 ∧
    (run_cycle { fetchFails := true, analysisFails := false }).2 = true := by
  decide

/-- C1 (amended): the pipeline sub-task is attempted in every cycle and a
trend-detector failure cannot prevent that, but the trend detector is
attempted only when the pipeline sub-task did not fail; either failure is
re-raised as a `SchedulerError` of the whole cycle. -/
theorem C1_pipeline_failure_skips_trend_detector :
    ∀ env : CycleEnv,
      SubTask.fetchAndStore ∈ (run_cycle env).1 ∧
      (SubTask.analysis ∈ (run_cycle env).1 ↔ env.fetchFails = false) ∧
      (run_cycle env).2 = (env.fetchFails || env.analysisFails) := by
  intro env
  cases env with
  | mk f a => cases f <;> cases a <;> decide

/-- C2: in the loop iteration in which `consecutive_failures` reaches
`max_consecutive_failures = 3` with `error_cooldown_sec = 30`, the health
counter becomes 3, the iteration emits exactly one critical notification
followed by a backoff sleep of `30 * 2 ^ 2 = 120` seconds, and the normal
inter-cycle sleep of `interval_sec` still happens afterwards. -/
theorem C2_third_failure_backoff :
    ∀ (cfg : SchedulerConfig) (h : SchedulerHealth) (now : Nat) (e : String),
      cfg.error_cooldown_sec = 30 → cfg.max_consecutive_failures = 3 →
      h.consecutive_failures = 2 →
      (scheduler_iteration cfg h now (.schedulerError e)).1.consecutive_failures = 3 ∧
      (scheduler_iteration cfg h now (.schedulerError e)).2 =
        [.criticalNotify, .backoffSleep 120, .intervalSleep cfg.interval_sec] ∧
      ((scheduler_iteration cfg h now (.schedulerError e)).2.count .criticalNotify = 1) ∧
      cfg.error_cooldown_sec * 2 ^ (3 - 1) = 120 := by
  intro cfg h now e hc hm hf
  have hstep : scheduler_iteration cfg h now (.schedulerError e) =
      (h.record_failure e,
       [.criticalNotify, .backoffSleep 120, .intervalSleep cfg.interval_sec]) := by
    simp only [scheduler_iteration, SchedulerHealth.record_failure, hc, hm, hf]
    norm_num
  refine ⟨?_, ?_, ?_, ?_⟩
  · rw [hstep]; simp [SchedulerHealth.record_failure, hf]
  · rw [hstep]
  · rw [hstep]; rfl
  · rw [hc]; decide

/-- C2 witness: with the source defaults (`interval_sec = 600`,
`max_consecutive_failures = 3`, `error_cooldown_sec = 30`) and a health
object showing two prior consecutive failures, the third failing cycle
emits the critical notification, a 120-second backoff sleep, and the
normal 600-second inter-cycle sleep. -/
theorem C2_third_failure_backoff_witness :
    (scheduler_iteration {} { consecutive_failures := 2, total_failures := 2 } 0
        (.schedulerError "pipeline failed")).2 =
      [.criticalNotify, .backoffSleep 120, .intervalSleep 600] :=
  (C2_third_failure_backoff {} { consecutive_failures := 2, total_failures := 2 } 0
    "pipeline failed" rfl rfl rfl).2.1

/-- C3: a zero metric fails the required-metrics pre-check of the pipeline
(the pre-check consults no configuration, so a configured minimum of zero
cannot rescue it); a missing `priceUsd` feed field is extracted as the
metric zero; and metrics strictly inside wide-open bounds (all minima
resolving to 0, no maximum) pass `passes_filters`. -/
theorem C3_zero_metrics_rejected_interior_passes :
    ∀ (price volume liquidity : ℚ) (f : Filters),
      ((price = 0 ∨ volume = 0 ∨ liquidity = 0) →
        all_required_metrics price volume liquidity = false) ∧
      (∀ pair : Pair, pair.priceUsd = Option.none → extract_price_usd pair = 0) ∧
      (0 < price → 0 < volume → 0 < liquidity →
        f.min_price_usd.getD 0 = 0 → f.max_price_usd = Option.none →
        f.min_volume_usd.getD 0 = 0 → f.min_liquidity_usd.getD 0 = 0 →
        passes_filters price volume liquidity f = true) := by
  intro price volume liquidity f
  refine ⟨?_, ?_, ?_⟩
  · intro h
    rcases h with h | h | h <;> simp [all_required_metrics, h]
  · intro pair hp
    have : extract_price_usd pair = (safe_float (.str "0") (some 0)).getD 0 := by
      simp [extract_price_usd, hp]
    rw [this]
    with_unfolding_all rfl
  · intro hp hv hl h1 h2 h3 h4
    simp only [passes_filters, h1, h2, h3, h4]
    simp [le_of_lt hp, le_of_lt hv, le_of_lt hl]

/-- C3 witness: with metrics `(1, 2, 3)` and an empty filter section the
interior case passes, and the zero-volume triple `(1, 0, 3)` fails the
pre-check even though every configured minimum is absent (default 0). -/
theorem C3_zero_metrics_witness :
    all_required_metrics 1 0 3 = false ∧ passes_filters 1 2 3 {} = true := by
  constructor
  · exact (C3_zero_metrics_rejected_interior_passes 1 0 3 {}).1 (Or.inr (Or.inl rfl))
  · exact (C3_zero_metrics_rejected_interior_passes 1 2 3 {}).2.2
      (by norm_num) (by norm_num) (by norm_num) rfl rfl rfl rfl

/-- C8: the score-to-level mapping follows the bands LOW [0,500),
MEDIUM [500,750), HIGH [750,1000), CRITICAL [1000,inf); a successfully
built assessment has `is_safe` true exactly when the score is at most the
configured maximum; and with the default maximum 1000 a score of exactly
1000 is CRITICAL yet safe. -/
theorem C8_risk_bands_and_is_safe :
    ∀ (s maxScore : ℤ) (a : RiskAssessment),
      (0 ≤ s → s < 500 → get_risk_level s = "LOW") ∧
      (500 ≤ s → s < 750 → get_risk_level s = "MEDIUM") ∧
      (750 ≤ s → s < 1000 → get_risk_level s = "HIGH") ∧
      (1000 ≤ s → get_risk_level s = "CRITICAL") ∧
      (assess_token_risk (some s) maxScore = .ok a → (a.is_safe = true ↔ s ≤ maxScore)) ∧
      get_risk_level 1000 = "CRITICAL" ∧
      assess_token_risk (some 1000) DEFAULT_MAX_SCORE =
        .ok { is_safe := true, score := 1000 } := by
  intro s maxScore a
  refine ⟨?_, ?_, ?_, ?_, ?_, by decide, rfl⟩
  · intro _ h2; simp [get_risk_level, h2]
  · intro h1 h2
    simp only [get_risk_level]
    rw [if_neg (by omega), if_pos h2]
  · intro h1 h2
    simp only [get_risk_level]
    rw [if_neg (by omega), if_neg (by omega), if_pos h2]
  · intro h1
    simp only [get_risk_level]
    rw [if_neg (by omega), if_neg (by omega), if_neg (by omega)]
  · intro h
    simp only [assess_token_risk, Except.ok.injEq] at h
    subst h
    simp

/-- C8 witness: a score of 600 maps to MEDIUM, and with maximum 1000 the
assessment of a 600 score is safe. -/
theorem C8_risk_bands_witness :
    get_risk_level 600 = "MEDIUM" ∧
    assess_token_risk (some 1000) DEFAULT_MAX_SCORE =
      .ok { is_safe := true, score := 1000 } :=
  ⟨(C8_risk_bands_and_is_safe 600 1000 { is_safe := true, score := 600 }).2.1
      (by decide) (by decide),
   (C8_risk_bands_and_is_safe 600 1000 { is_safe := true, score := 600 }).2.2.2.2.2.2⟩

/-- C9: after stripping and lowercasing, a string ending in `k`/`m`/`b`
whose remaining prefix parses as a decimal yields the prefix times
1e3/1e6/1e9 (the source examples `"1.5k"` and `"2M"` included, with the
`M` case showing case-insensitivity), while `None`, the empty string and
an unparseable string all yield the caller's default rather than zero. -/
theorem C9_safe_float_suffix_and_missing :
    ∀ (s : String) (d : Option ℚ) (q : ℚ),
      (((pyStrip s.data).map pyLower).getLast? = some 'k' →
        decimalParse ((pyStrip s.data).map pyLower).dropLast = some q →
        safe_float (.str s) d = some (q * 1000)) ∧
      (((pyStrip s.data).map pyLower).getLast? = some 'm' →
        decimalParse ((pyStrip s.data).map pyLower).dropLast = some q →
        safe_float (.str s) d = some (q * 1000000)) ∧
      (((pyStrip s.data).map pyLower).getLast? = some 'b' →
        decimalParse ((pyStrip s.data).map pyLower).dropLast = some q →
        safe_float (.str s) d = some (q * 1000000000)) ∧
      safe_float .none d = d ∧
      safe_float (.str "") d = d ∧
      safe_float (.str "not a number") d = d ∧
      safe_float (.str "1.5k") d = some 1500 ∧
      safe_float (.str "2M") d = some 2000000 := by
  intro s d q
  refine ⟨?_, ?_, ?_, rfl, ?_, ?_, ?_, ?_⟩
  · intro h1 h2
    simp only [safe_float, h1, h2]
  · intro h1 h2
    simp only [safe_float, h1, h2]
  · intro h1 h2
    simp only [safe_float, h1, h2]
  · with_unfolding_all rfl
  · with_unfolding_all rfl
  · have h1 : safe_float (.str "1.5k") d = some ((1 * ((1 : ℚ) + 5 / 10 ^ 1)) * 1000) := by
      with_unfolding_all rfl
    rw [h1]; norm_num
  · have h1 : safe_float (.str "2M") d = some ((1 * (2 : ℚ)) * 1000000) := by
      with_unfolding_all rfl
    rw [h1]; norm_num

/-- C9 witness: the `"1.5k"` suffix case with its decimal prefix parse
discharged concretely, plus the `None` default case. -/
theorem C9_safe_float_witness :
    safe_float (.str "1.5k") (some 7) = some 1500 ∧ safe_float .none (some 7) = some 7 := by
  constructor
  · have h := (C9_safe_float_suffix_and_missing "1.5k" (some 7) (3 / 2)).1
      (by with_unfolding_all rfl) (by with_unfolding_all rfl)
    rw [h]; norm_num
  · exact (C9_safe_float_suffix_and_missing "1.5k" (some 7) (3 / 2)).2.2.2.1

/-- Helper: when every parsed liquidity among the remaining pairs is at
most the running maximum, the best-pair fold leaves its accumulator
unchanged (the source compares with a strict `>`). -/
theorem bestPair_fold_no_update :
    ∀ (pairs : List Pair) (b : Option Pair) (m : ℚ),
      (∀ p ∈ pairs, ∀ v, p.liquidityUsd = some v → v ≤ m) →
      pairs.foldl bestPairStep (b, m) = (b, m) := by
  intro pairs
  induction pairs with
  | nil => intro b m _; rfl
  | cons p rest ih =>
    intro b m h
    have hstep : bestPairStep (b, m) p = (b, m) := by
      unfold bestPairStep
      cases hp : p.liquidityUsd with
      | none => rfl
      | some v =>
        have hle := h p (by simp) v hp
        simp [not_lt.mpr hle]
    rw [List.foldl_cons, hstep]
    exact ih b m (fun q hq v hv => h q (by simp [hq]) v hv)

/-- Helper: when some remaining pair strictly beats the running maximum,
the fold ends on the first pair attaining the overall maximum: the pairs
before it are strictly below it, every pair is at most it. -/
theorem bestPair_fold_first_max :
    ∀ (pairs : List Pair) (b : Option Pair) (m : ℚ),
      (∃ p ∈ pairs, ∃ v, p.liquidityUsd = some v ∧ m < v) →
      ∃ l₁ best l₂ vb,
        pairs = l₁ ++ best :: l₂ ∧
        best.liquidityUsd = some vb ∧ m < vb ∧
        (∀ q ∈ l₁, ∀ v, q.liquidityUsd = some v → v < vb) ∧
        (∀ q ∈ pairs, ∀ v, q.liquidityUsd = some v → v ≤ vb) ∧
        pairs.foldl bestPairStep (b, m) = (some best, vb) := by
  intro pairs
  induction pairs with
  | nil => intro b m h; simp at h
  | cons p rest ih =>
    intro b m h
    cases hp : p.liquidityUsd with
    | none =>
      obtain ⟨q, hq, v, hv, hmv⟩ := h
      have hq2 : q ∈ rest := by
        rcases List.mem_cons.mp hq with rfl | hq2
        · rw [hp] at hv; exact absurd hv (by simp)
        · exact hq2
      obtain ⟨l₁, best, l₂, vb, hsplit, hliq, hlt, hpre, hub, hfold⟩ :=
        ih b m ⟨q, hq2, v, hv, hmv⟩
      refine ⟨p :: l₁, best, l₂, vb, by rw [hsplit]; rfl, hliq, hlt, ?_, ?_, ?_⟩
      · intro r hr w hw
        rcases List.mem_cons.mp hr with rfl | hr2
        · rw [hp] at hw; exact absurd hw (by simp)
        · exact hpre r hr2 w hw
      · intro r hr w hw
        rcases List.mem_cons.mp hr with rfl | hr2
        · rw [hp] at hw; exact absurd hw (by simp)
        · exact hub r hr2 w hw
      · rw [List.foldl_cons]
        have hstep : bestPairStep (b, m) p = (b, m) := by unfold bestPairStep; rw [hp]
        rw [hstep, hfold]
    | some v =>
      by_cases hv : m < v
      · have hstep : bestPairStep (b, m) p = (some p, v) := by
          unfold bestPairStep; rw [hp]; simp [hv]
        by_cases hrest : ∃ q ∈ rest, ∃ w, q.liquidityUsd = some w ∧ v < w
        · obtain ⟨l₁, best, l₂, vb, hsplit, hliq, hlt, hpre, hub, hfold⟩ :=
            ih (some p) v hrest
          refine ⟨p :: l₁, best, l₂, vb, by rw [hsplit]; rfl, hliq,
            lt_trans hv hlt, ?_, ?_, ?_⟩
          · intro r hr w hw
            rcases List.mem_cons.mp hr with rfl | hr2
            · rw [hp] at hw
              injection hw with hw
              exact hw ▸ hlt
            · exact hpre r hr2 w hw
          · intro r hr w hw
            rcases List.mem_cons.mp hr with rfl | hr2
            · rw [hp] at hw
              injection hw with hw
              exact le_of_lt (hw ▸ hlt)
            · exact hub r hr2 w hw
          · rw [List.foldl_cons, hstep, hfold]
        · push_neg at hrest
          refine ⟨[], p, rest, v, rfl, hp, hv, by simp, ?_, ?_⟩
          · intro r hr w hw
            rcases List.mem_cons.mp hr with rfl | hr2
            · rw [hp] at hw
              injection hw with hw
              rw [hw]
            · exact hrest r hr2 w hw
          · rw [List.foldl_cons, hstep]
            exact bestPair_fold_no_update rest (some p) v hrest
      · have hstep : bestPairStep (b, m) p = (b, m) := by
          unfold bestPairStep; rw [hp]; simp [hv]
        obtain ⟨q, hq, w, hw, hmw⟩ := h
        have hq2 : q ∈ rest := by
          rcases List.mem_cons.mp hq with rfl | hq2
          · rw [hp] at hw
            injection hw with hw
            rw [hw] at hv
            exact absurd hmw hv
          · exact hq2
        obtain ⟨l₁, best, l₂, vb, hsplit, hliq, hlt, hpre, hub, hfold⟩ :=
          ih b m ⟨q, hq2, w, hw, hmw⟩
        refine ⟨p :: l₁, best, l₂, vb, by rw [hsplit]; rfl, hliq, hlt, ?_, ?_, ?_⟩
        · intro r hr w2 hw2
          rcases List.mem_cons.mp hr with rfl | hr2
          · rw [hp] at hw2
            injection hw2 with hw2
            rw [← hw2]
            exact lt_of_le_of_lt (not_lt.mp hv) hlt
          · exact hpre r hr2 w2 hw2
        · intro r hr w2 hw2
          rcases List.mem_cons.mp hr with rfl | hr2
          · rw [hp] at hw2
            injection hw2 with hw2
            rw [← hw2]
            exact le_of_lt (lt_of_le_of_lt (not_lt.mp hv) hlt)
          · exact hub r hr2 w2 hw2
        · rw [List.foldl_cons, hstep, hfold]

/-- C4: when some returned pair has a positive parsed USD liquidity, the
pipeline selects the first pair attaining the numerically highest parsed
liquidity (strictly earlier pairs are strictly below it, so ties go to the
first one seen); and when the feed returns a non-empty pair list in which
no pair has a non-zero parsed liquidity, the asset is rejected with the
log reason "No valid pairs with liquidity" and the cycle counters for that
single asset read processed=1, filtered=1, stored=0 (updated=0). -/
theorem C4_highest_liquidity_pair_or_reject :
    ∀ (cfg : AppConfig) (orc : FeedOracle) (db : List TokenSnapshotRow) (p : TokenProfile),
      ((∃ q ∈ orc.pairsFor p.chain_id p.token_address,
          ∃ v, q.liquidityUsd = some v ∧ 0 < v) →
        ∃ l₁ best l₂ vb,
          orc.pairsFor p.chain_id p.token_address = l₁ ++ best :: l₂ ∧
          selectBestPair (orc.pairsFor p.chain_id p.token_address) = some best ∧
          best.liquidityUsd = some vb ∧ 0 < vb ∧
          (∀ q ∈ l₁, ∀ v, q.liquidityUsd = some v → v < vb) ∧
          (∀ q ∈ orc.pairsFor p.chain_id p.token_address,
            ∀ v, q.liquidityUsd = some v → v ≤ vb)) ∧
      (orc.pairsFor p.chain_id p.token_address ≠ [] →
        (∀ q ∈ orc.pairsFor p.chain_id p.token_address,
          ∀ v, q.liquidityUsd = some v → v = 0) →
        (processProfile cfg orc db p).1 = .filtered .noValidPairs ∧
        RejectReason.noValidPairs.message = "No valid pairs with liquidity" ∧
        (fetch_and_store_tokens cfg orc db [p]).1 =
          { processed := 1, filtered := 1, stored := 0, updated := 0 }) := by
  intro cfg orc db p
  constructor
  · intro hex
    obtain ⟨l₁, best, l₂, vb, hsplit, hliq, hlt, hpre, hub, hfold⟩ :=
      bestPair_fold_first_max (orc.pairsFor p.chain_id p.token_address) Option.none 0 hex
    refine ⟨l₁, best, l₂, vb, hsplit, ?_, hliq, hlt, hpre, hub⟩
    unfold selectBestPair
    rw [hfold]
  · intro hne hzero
    have hsel : selectBestPair (orc.pairsFor p.chain_id p.token_address) = Option.none := by
      unfold selectBestPair
      rw [bestPair_fold_no_update (orc.pairsFor p.chain_id p.token_address) Option.none 0
        (fun q hq v hv => le_of_eq (hzero q hq v hv))]
    have hcore : evaluateCore cfg orc p.chain_id p.token_address = .error .noValidPairs := by
      obtain ⟨a, t, hat⟩ := List.exists_cons_of_ne_nil hne
      unfold evaluateCore
      rw [hat] at hsel ⊢
      simp only [List.isEmpty_cons, hsel]
      rfl
    have hproc : processProfile cfg orc db p = (.filtered .noValidPairs, db, []) := by
      unfold processProfile
      rw [hcore]
    refine ⟨by rw [hproc], rfl, ?_⟩
    unfold fetch_and_store_tokens
    rw [List.foldl_cons, List.foldl_nil]
    unfold pipelineStep
    rw [hproc]
    rfl

/-- C4 witness: a feed returning three pairs with liquidities 5, 7, 7
selects the second pair (the first attaining the maximum 7), and a feed
returning a single zero-liquidity pair yields the no-valid-pairs
rejection with counters processed=1, filtered=1, stored=0. -/
theorem C4_highest_liquidity_witness :
    selectBestPair
        [{ liquidityUsd := some 5 }, { liquidityUsd := some 7 },
         { liquidityUsd := some 7 }] = some { liquidityUsd := some 7 } ∧
    (fetch_and_store_tokens {}
        { pairsFor := fun _ _ => [{ liquidityUsd := some 0 }],
          riskScore := fun _ => some 0, now := 0 }
        [] [{ token_address := "addr", chain_id := "solana" }]).1 =
      { processed := 1, filtered := 1, stored := 0, updated := 0 } := by
  constructor
  · obtain ⟨l₁, best, l₂, vb, hsplit, hsel, hliq, hlt, hpre, hub⟩ :=
      (C4_highest_liquidity_pair_or_reject {}
        { pairsFor := fun _ _ =>
            [{ liquidityUsd := some 5 }, { liquidityUsd := some 7 },
             { liquidityUsd := some 7 }],
          riskScore := fun _ => some 0, now := 0 }
        [] { token_address := "addr", chain_id := "solana" }).1
      ⟨{ liquidityUsd := some 7 }, by simp, 7, rfl, by norm_num⟩
    dsimp only at hsplit hsel hub
    rw [hsel]
    -- identify the selected pair: it is in the list, has liquidity vb > 5,
    -- and every pair is at most vb, so vb = 7 and best is the first such pair
    have hmem : best ∈ [({ liquidityUsd := some 5 } : Pair), { liquidityUsd := some 7 },
        { liquidityUsd := some 7 }] := by
      rw [hsplit]
      exact List.mem_append_right _ (List.mem_cons_self _ _)
    fin_cases hmem
    · rw [show vb = 5 by injection hliq.symm] at hlt hub
      have h7 := hub { liquidityUsd := some 7 } (by simp) 7 rfl
      norm_num at h7
    · rfl
    · rfl
  · exact ((C4_highest_liquidity_pair_or_reject {}
      { pairsFor := fun _ _ => [{ liquidityUsd := some 0 }],
        riskScore := fun _ => some 0, now := 0 }
      [] { token_address := "addr", chain_id := "solana" }).2
      (by simp) (by intro q hq v hv; simp at hq; rw [hq] at hv; injection hv with hv;
                    exact hv.symm)).2.2

/-- Helper: the pipeline fold preserves the counter balance — every
processed profile is tallied in exactly one of the three buckets. -/
theorem pipeline_fold_counters_balance :
    ∀ (profiles : List TokenProfile) (cfg : AppConfig) (orc : FeedOracle)
      (acc : CycleCounters × List TokenSnapshotRow × List NewTokenAlert),
      acc.1.processed = acc.1.filtered + acc.1.stored + acc.1.updated →
      (profiles.foldl (pipelineStep cfg orc) acc).1.processed =
        (profiles.foldl (pipelineStep cfg orc) acc).1.filtered +
        (profiles.foldl (pipelineStep cfg orc) acc).1.stored +
        (profiles.foldl (pipelineStep cfg orc) acc).1.updated := by
  intro profiles
  induction profiles with
  | nil => intro cfg orc acc h; simpa using h
  | cons p rest ih =>
    intro cfg orc acc h
    rw [List.foldl_cons]
    refine ih cfg orc (pipelineStep cfg orc acc p) ?_
    dsimp only [pipelineStep]
    cases (processProfile cfg orc acc.2.1 p).1 <;>
      simp [CycleCounters.add, h] <;> try omega

/-- C10: for every configuration, collaborator behaviour, initial database
and feed response, the per-cycle counters at the end of the pipeline run
satisfy processed = filtered + stored + updated. -/
theorem C10_counters_partition :
    ∀ (cfg : AppConfig) (orc : FeedOracle) (db : List TokenSnapshotRow)
      (profiles : List TokenProfile),
      (fetch_and_store_tokens cfg orc db profiles).1.processed =
        (fetch_and_store_tokens cfg orc db profiles).1.filtered +
        (fetch_and_store_tokens cfg orc db profiles).1.stored +
        (fetch_and_store_tokens cfg orc db profiles).1.updated := by
  intro cfg orc db profiles
  unfold fetch_and_store_tokens
  exact pipeline_fold_counters_balance profiles cfg orc _ rfl

/-- Helper: a found row satisfies the row-match predicate. -/
theorem findExisting_matches {db : List TokenSnapshotRow} {p : TokenProfile}
    {r : TokenSnapshotRow} (h : findExisting db p = some r) : rowMatches p r = true :=
  List.find?_some h

/-- Helper: the in-place update does not touch the identity columns, so
row matching is invariant under it. -/
theorem rowMatches_updateRow (q : TokenProfile) (r : TokenSnapshotRow) (d : AcceptedData)
    (now : Nat) : rowMatches q (updateRow r d now) = rowMatches q r := rfl

/-- Helper: the in-place update is idempotent for fixed data and clock. -/
theorem updateRow_idem (r : TokenSnapshotRow) (d : AcceptedData) (now : Nat) :
    updateRow (updateRow r d now) d now = updateRow r d now := rfl

/-- Helper: dedup lookup on a cons whose head does not match. -/
theorem findExisting_cons_neg {q : TokenProfile} {x : TokenSnapshotRow}
    (l : List TokenSnapshotRow) (hx : rowMatches q x = false) :
    findExisting (x :: l) q = findExisting l q := by
  simp [findExisting, List.find?, hx]

/-- Helper: dedup lookup on a cons whose head matches. -/
theorem findExisting_cons_pos {q : TokenProfile} {x : TokenSnapshotRow}
    (l : List TokenSnapshotRow) (hx : rowMatches q x = true) :
    findExisting (x :: l) q = some x := by
  simp [findExisting, List.find?, hx]

/-- Helper: replacement on a cons whose head does not match. -/
theorem replaceFirst_cons_neg {p : TokenProfile} {x : TokenSnapshotRow}
    (l : List TokenSnapshotRow) (f : TokenSnapshotRow → TokenSnapshotRow)
    (hx : rowMatches p x = false) :
    replaceFirst (x :: l) p f = x :: replaceFirst l p f := by
  simp [replaceFirst, hx]

/-- Helper: replacement on a cons whose head matches. -/
theorem replaceFirst_cons_pos {p : TokenProfile} {x : TokenSnapshotRow}
    (l : List TokenSnapshotRow) (f : TokenSnapshotRow → TokenSnapshotRow)
    (hx : rowMatches p x = true) :
    replaceFirst (x :: l) p f = f x :: l := by
  simp [replaceFirst, hx]

/-- Helper: a row found in a prefix is still the first match after
appending more rows. -/
theorem findExisting_append_of_found {db : List TokenSnapshotRow} {p : TokenProfile}
    {r : TokenSnapshotRow} (l : List TokenSnapshotRow) (h : findExisting db p = some r) :
    findExisting (db ++ l) p = some r := by
  induction db with
  | nil => simp [findExisting, List.find?] at h
  | cons a rest ih =>
    rw [List.cons_append]
    cases hm : rowMatches p a
    · rw [findExisting_cons_neg _ hm] at h
      rw [findExisting_cons_neg _ hm]
      exact ih h
    · rw [findExisting_cons_pos _ hm] at h
      rw [findExisting_cons_pos _ hm]
      exact h

/-- Helper: looking up a missing key after an append inspects the
appended rows. -/
theorem findExisting_append_of_not_found {db : List TokenSnapshotRow} {p : TokenProfile}
    (l : List TokenSnapshotRow) (h : findExisting db p = Option.none) :
    findExisting (db ++ l) p = findExisting l p := by
  induction db with
  | nil => rfl
  | cons a rest ih =>
    rw [List.cons_append]
    cases hm : rowMatches p a
    · rw [findExisting_cons_neg _ hm] at h
      rw [findExisting_cons_neg _ hm]
      exact ih h
    · rw [findExisting_cons_pos _ hm] at h
      exact absurd h (by simp)

/-- Helper: replacing the first match by a fixed point of `f` leaves the
database unchanged. -/
theorem replaceFirst_eq_self :
    ∀ (db : List TokenSnapshotRow) (p : TokenProfile)
      (f : TokenSnapshotRow → TokenSnapshotRow) (r : TokenSnapshotRow),
      findExisting db p = some r → f r = r → replaceFirst db p f = db := by
  intro db p f
  induction db with
  | nil => intro r h _; simp [findExisting, List.find?] at h
  | cons a rest ih =>
    intro r h hf
    cases hm : rowMatches p a
    · rw [findExisting_cons_neg _ hm] at h
      rw [replaceFirst_cons_neg _ _ hm, ih r h hf]
    · rw [findExisting_cons_pos _ hm] at h
      injection h with h
      rw [replaceFirst_cons_pos _ _ hm, h, hf]

/-- Helper: effect of `replaceFirst` for profile `p` on the lookup for a
(possibly different) profile `q`, when `f` preserves `q`-matching: either
the lookup is untouched, or the looked-up row was the replaced one. -/
theorem findExisting_replaceFirst_cases :
    ∀ (db : List TokenSnapshotRow) (p q : TokenProfile)
      (f : TokenSnapshotRow → TokenSnapshotRow),
      (∀ r, rowMatches q (f r) = rowMatches q r) →
      findExisting (replaceFirst db p f) q = findExisting db q ∨
      ∃ r, findExisting db q = some r ∧ rowMatches p r = true ∧
        findExisting (replaceFirst db p f) q = some (f r) := by
  intro db p q f hf
  induction db with
  | nil => left; rfl
  | cons a rest ih =>
    cases hm : rowMatches p a
    · rw [replaceFirst_cons_neg _ _ hm]
      cases hq : rowMatches q a
      · rw [findExisting_cons_neg _ hq, findExisting_cons_neg _ hq]
        exact ih
      · rw [findExisting_cons_pos _ hq, findExisting_cons_pos _ hq]
        left; rfl
    · rw [replaceFirst_cons_pos _ _ hm]
      cases hq : rowMatches q a
      · have hq2 : rowMatches q (f a) = false := by rw [hf a]; exact hq
        rw [findExisting_cons_neg _ hq, findExisting_cons_neg _ hq2]
        left; rfl
      · have hq2 : rowMatches q (f a) = true := by rw [hf a]; exact hq
        rw [findExisting_cons_pos _ hq, findExisting_cons_pos _ hq2]
        right
        exact ⟨a, rfl, hm, rfl⟩

/-- Helper: replacing the first `p`-match with `f` (which preserves
`p`-matching) makes the lookup for `p` return the replaced row. -/
theorem findExisting_replaceFirst_self :
    ∀ (db : List TokenSnapshotRow) (p : TokenProfile)
      (f : TokenSnapshotRow → TokenSnapshotRow) (r : TokenSnapshotRow),
      (∀ x, rowMatches p (f x) = rowMatches p x) →
      findExisting db p = some r →
      findExisting (replaceFirst db p f) p = some (f r) := by
  intro db p f
  induction db with
  | nil => intro r _ h; simp [findExisting, List.find?] at h
  | cons a rest ih =>
    intro r hf h
    cases hm : rowMatches p a
    · rw [findExisting_cons_neg _ hm] at h
      rw [replaceFirst_cons_neg _ _ hm, findExisting_cons_neg _ hm]
      exact ih r hf h
    · rw [findExisting_cons_pos _ hm] at h
      injection h with h
      have hfa : rowMatches p (f a) = true := by rw [hf a]; exact hm
      rw [replaceFirst_cons_pos _ _ hm, findExisting_cons_pos _ hfa, h]

/-- Helper: a row matching two profiles forces the profiles to share the
identity key. -/
theorem rowMatches_same_key {p q : TokenProfile} {r : TokenSnapshotRow}
    (hp : rowMatches p r = true) (hq : rowMatches q r = true) :
    q.token_address = p.token_address ∧ q.chain_id = p.chain_id := by
  simp only [rowMatches, Bool.and_eq_true, beq_iff_eq] at hp hq
  exact ⟨hq.1.symm.trans hp.1, hq.2.symm.trans hp.2⟩

/-- Helper: processing any profile preserves settledness of the database
for every profile. -/
theorem settledFor_preserved_step :
    ∀ (cfg : AppConfig) (orc : FeedOracle) (db : List TokenSnapshotRow)
      (p q : TokenProfile), settledFor cfg orc db q →
      settledFor cfg orc (processProfile cfg orc db p).2.1 q := by
  intro cfg orc db p q hs
  cases hev : evaluateCore cfg orc p.chain_id p.token_address with
  | error e =>
    intro dq hdq
    have hproc : processProfile cfg orc db p = (.filtered e, db, []) := by
      unfold processProfile; rw [hev]
    rw [hproc]
    exact hs dq hdq
  | ok d =>
    cases hex : findExisting db p with
    | none =>
      intro dq hdq
      obtain ⟨rq, hrq, hfix⟩ := hs dq hdq
      have hproc : processProfile cfg orc db p =
          (.stored, db ++ [newRow p d orc.now],
           if cfg.telegram_configured then
             [{ token_address := p.token_address, chain_id := p.chain_id }] else []) := by
        unfold processProfile; rw [hev, hex]
      rw [hproc]
      exact ⟨rq, findExisting_append_of_found _ hrq, hfix⟩
    | some r =>
      intro dq hdq
      obtain ⟨rq, hrq, hfix⟩ := hs dq hdq
      have hproc : processProfile cfg orc db p =
          (.updated, replaceFirst db p (fun x => updateRow x d orc.now), []) := by
        unfold processProfile; rw [hev, hex]
      rw [hproc]
      rcases findExisting_replaceFirst_cases db p q (fun x => updateRow x d orc.now)
          (fun x => rowMatches_updateRow q x d orc.now) with hL | ⟨r0, hr0, hpr0, hr0b⟩
      · exact ⟨rq, by rw [hL]; exact hrq, hfix⟩
      · rw [hrq] at hr0
        injection hr0 with hr0
        rw [← hr0] at hpr0 hr0b
        have hqr : rowMatches q rq = true := findExisting_matches hrq
        have hkeys := rowMatches_same_key hpr0 hqr
        rw [hkeys.1, hkeys.2, hev] at hdq
        injection hdq with hdq
        rw [hdq] at hr0b ⊢
        exact ⟨updateRow rq dq orc.now, hr0b, updateRow_idem rq dq orc.now⟩

/-- Helper: after processing a profile, the database is settled for that
profile: whatever branch ran, the first matching row now equals the
in-place update of itself with the accepted data. -/
theorem settledFor_after_self :
    ∀ (cfg : AppConfig) (orc : FeedOracle) (db : List TokenSnapshotRow) (p : TokenProfile),
      settledFor cfg orc (processProfile cfg orc db p).2.1 p := by
  intro cfg orc db p
  cases hev : evaluateCore cfg orc p.chain_id p.token_address with
  | error e =>
    intro d hd
    rw [hev] at hd
    exact absurd hd (by simp)
  | ok d0 =>
    cases hex : findExisting db p with
    | none =>
      intro d hd
      rw [hev] at hd
      injection hd with hd
      rw [← hd]
      have hproc : processProfile cfg orc db p =
          (.stored, db ++ [newRow p d0 orc.now],
           if cfg.telegram_configured then
             [{ token_address := p.token_address, chain_id := p.chain_id }] else []) := by
        unfold processProfile; rw [hev, hex]
      rw [hproc]
      refine ⟨newRow p d0 orc.now, ?_, rfl⟩
      rw [findExisting_append_of_not_found _ hex]
      have hm : rowMatches p (newRow p d0 orc.now) = true := by
        simp [rowMatches, newRow]
      rw [findExisting_cons_pos _ hm]
    | some r =>
      intro d hd
      rw [hev] at hd
      injection hd with hd
      rw [← hd]
      have hproc : processProfile cfg orc db p =
          (.updated, replaceFirst db p (fun x => updateRow x d0 orc.now), []) := by
        unfold processProfile; rw [hev, hex]
      rw [hproc]
      refine ⟨updateRow r d0 orc.now, ?_, updateRow_idem r d0 orc.now⟩
      exact findExisting_replaceFirst_self db p _ r
        (fun x => rowMatches_updateRow p x d0 orc.now) hex

/-- Helper: every profile of the processed feed list — and every profile
already settled beforehand — is settled in the database left by the
pipeline fold. -/
theorem run_settles :
    ∀ (profiles : List TokenProfile) (cfg : AppConfig) (orc : FeedOracle)
      (acc : CycleCounters × List TokenSnapshotRow × List NewTokenAlert)
      (p : TokenProfile),
      (p ∈ profiles ∨ settledFor cfg orc acc.2.1 p) →
      settledFor cfg orc (profiles.foldl (pipelineStep cfg orc) acc).2.1 p := by
  intro profiles
  induction profiles with
  | nil =>
    intro cfg orc acc p h
    rcases h with h | h
    · simp at h
    · exact h
  | cons q rest ih =>
    intro cfg orc acc p h
    rw [List.foldl_cons]
    rcases h with h | h
    · rcases List.mem_cons.mp h with rfl | h2
      · exact ih cfg orc _ p (Or.inr (settledFor_after_self cfg orc acc.2.1 p))
      · exact ih cfg orc _ p (Or.inl h2)
    · exact ih cfg orc _ p (Or.inr (settledFor_preserved_step cfg orc acc.2.1 q p h))

/-- Helper: the per-asset step either rejects (profile not accepted) or
upserts (profile accepted), matching `acceptedProfile`. -/
theorem processProfile_result_cases :
    ∀ (cfg : AppConfig) (orc : FeedOracle) (db : List TokenSnapshotRow) (p : TokenProfile),
      ((∃ e, (processProfile cfg orc db p).1 = .filtered e) ∧
        acceptedProfile cfg orc p = false) ∨
      (((processProfile cfg orc db p).1 = .stored ∨
        (processProfile cfg orc db p).1 = .updated) ∧
        acceptedProfile cfg orc p = true) := by
  intro cfg orc db p
  cases hev : evaluateCore cfg orc p.chain_id p.token_address with
  | error e =>
    left
    constructor
    · exact ⟨e, by unfold processProfile; rw [hev]⟩
    · unfold acceptedProfile; rw [hev]
  | ok d =>
    right
    constructor
    · cases hex : findExisting db p with
      | none => left; unfold processProfile; rw [hev, hex]
      | some r => right; unfold processProfile; rw [hev, hex]
    · unfold acceptedProfile; rw [hev]

/-- Helper: counters of any pipeline fold — every profile is processed,
the rejected ones are filtered, and the accepted ones are stored or
updated. -/
theorem run_counters :
    ∀ (profiles : List TokenProfile) (cfg : AppConfig) (orc : FeedOracle)
      (acc : CycleCounters × List TokenSnapshotRow × List NewTokenAlert),
      (profiles.foldl (pipelineStep cfg orc) acc).1.processed =
        acc.1.processed + profiles.length ∧
      (profiles.foldl (pipelineStep cfg orc) acc).1.filtered =
        acc.1.filtered +
          (profiles.filter (fun p => !acceptedProfile cfg orc p)).length ∧
      (profiles.foldl (pipelineStep cfg orc) acc).1.stored +
          (profiles.foldl (pipelineStep cfg orc) acc).1.updated =
        acc.1.stored + acc.1.updated +
          (profiles.filter (fun p => acceptedProfile cfg orc p)).length := by
  intro profiles
  induction profiles with
  | nil => intro cfg orc acc; simp
  | cons p rest ih =>
    intro cfg orc acc
    rw [List.foldl_cons]
    obtain ⟨h1, h2, h3⟩ := ih cfg orc (pipelineStep cfg orc acc p)
    have hstep1 : (pipelineStep cfg orc acc p).1 =
        acc.1.add (processProfile cfg orc acc.2.1 p).1 := rfl
    rcases processProfile_result_cases cfg orc acc.2.1 p with
      ⟨⟨e, hres⟩, hacc⟩ | ⟨hres, hacc⟩
    · refine ⟨?_, ?_, ?_⟩
      · rw [h1, hstep1, hres]
        simp [CycleCounters.add, List.length_cons]
        omega
      · rw [h2, hstep1, hres]
        simp [CycleCounters.add, List.filter_cons, hacc]
        omega
      · rw [h3, hstep1, hres]
        simp [CycleCounters.add, List.filter_cons, hacc]
    · refine ⟨?_, ?_, ?_⟩
      · rw [h1, hstep1]
        rcases hres with hres | hres <;>
          (rw [hres]; simp [CycleCounters.add, List.length_cons]; omega)
      · rw [h2, hstep1]
        rcases hres with hres | hres <;>
          (rw [hres]; simp [CycleCounters.add, List.filter_cons, hacc])
      · rw [h3, hstep1]
        rcases hres with hres | hres <;>
          (rw [hres]; simp [CycleCounters.add, List.filter_cons, hacc]; omega)

/-- Helper: a pipeline fold over a database that is settled for every
profile of the feed list changes nothing: no row is touched, no alert is
emitted, nothing is stored; every accepted profile is counted as updated
and every rejected one as filtered. -/
theorem run_on_settled :
    ∀ (profiles : List TokenProfile) (cfg : AppConfig) (orc : FeedOracle)
      (c : CycleCounters) (db : List TokenSnapshotRow) (al : List NewTokenAlert),
      (∀ p ∈ profiles, settledFor cfg orc db p) →
      (profiles.foldl (pipelineStep cfg orc) (c, db, al)).2.1 = db ∧
      (profiles.foldl (pipelineStep cfg orc) (c, db, al)).2.2 = al ∧
      (profiles.foldl (pipelineStep cfg orc) (c, db, al)).1.stored = c.stored ∧
      (profiles.foldl (pipelineStep cfg orc) (c, db, al)).1.updated =
        c.updated + (profiles.filter (fun p => acceptedProfile cfg orc p)).length ∧
      (profiles.foldl (pipelineStep cfg orc) (c, db, al)).1.filtered =
        c.filtered + (profiles.filter (fun p => !acceptedProfile cfg orc p)).length ∧
      (profiles.foldl (pipelineStep cfg orc) (c, db, al)).1.processed =
        c.processed + profiles.length := by
  intro profiles
  induction profiles with
  | nil => intro cfg orc c db al _; simp
  | cons p rest ih =>
    intro cfg orc c db al hset
    rw [List.foldl_cons]
    cases hev : evaluateCore cfg orc p.chain_id p.token_address with
    | error e =>
      have hproc : processProfile cfg orc db p = (.filtered e, db, []) := by
        unfold processProfile; rw [hev]
      have hstep : pipelineStep cfg orc (c, db, al) p = (c.add (.filtered e), db, al) := by
        unfold pipelineStep
        rw [hproc]
        simp
      rw [hstep]
      obtain ⟨h1, h2, h3, h4, h5, h6⟩ := ih cfg orc (c.add (.filtered e)) db al
        (fun q hq => hset q (List.mem_cons_of_mem _ hq))
      have hacc : acceptedProfile cfg orc p = false := by
        unfold acceptedProfile; rw [hev]
      refine ⟨h1, h2, by rw [h3]; rfl, ?_, ?_, ?_⟩
      · rw [h4]
        simp [CycleCounters.add, List.filter_cons, hacc]
      · rw [h5]
        simp [CycleCounters.add, List.filter_cons, hacc]
        omega
      · rw [h6]
        simp [CycleCounters.add, List.length_cons]
        omega
    | ok d =>
      obtain ⟨r, hr, hfix⟩ := hset p (List.mem_cons_self p rest) d hev
      have hproc : processProfile cfg orc db p = (.updated, db, []) := by
        unfold processProfile
        rw [hev, hr]
        dsimp only
        rw [replaceFirst_eq_self db p _ r hr hfix]
      have hstep : pipelineStep cfg orc (c, db, al) p = (c.add .updated, db, al) := by
        unfold pipelineStep
        rw [hproc]
        simp
      rw [hstep]
      obtain ⟨h1, h2, h3, h4, h5, h6⟩ := ih cfg orc (c.add .updated) db al
        (fun q hq => hset q (List.mem_cons_of_mem _ hq))
      have hacc : acceptedProfile cfg orc p = true := by
        unfold acceptedProfile; rw [hev]
      refine ⟨h1, h2, by rw [h3]; rfl, ?_, ?_, ?_⟩
      · rw [h4]
        simp [CycleCounters.add, List.filter_cons, hacc]
        omega
      · rw [h5]
        simp [CycleCounters.add, List.filter_cons, hacc]
      · rw [h6]
        simp [CycleCounters.add, List.length_cons]
        omega

/-- C7: running the pipeline twice on an unchanged feed response is
idempotent with respect to storage and alerts — the second run leaves the
database exactly as the first run left it (every accepted asset takes the
in-place update branch, overwriting the row with the same metric, risk
and timestamp values), creates no row, emits no new-asset alert, counts
nothing as stored, counts as updated exactly what the first run stored or
updated, and repeats the first run's processed and filtered tallies. -/
theorem C7_second_run_idempotent :
    ∀ (cfg : AppConfig) (orc : FeedOracle) (db : List TokenSnapshotRow)
      (profiles : List TokenProfile),
      (fetch_and_store_tokens cfg orc
          (fetch_and_store_tokens cfg orc db profiles).2.1 profiles).2.1 =
        (fetch_and_store_tokens cfg orc db profiles).2.1 ∧
      (fetch_and_store_tokens cfg orc
          (fetch_and_store_tokens cfg orc db profiles).2.1 profiles).2.2 = [] ∧
      (fetch_and_store_tokens cfg orc
          (fetch_and_store_tokens cfg orc db profiles).2.1 profiles).1.stored = 0 ∧
      (fetch_and_store_tokens cfg orc
          (fetch_and_store_tokens cfg orc db profiles).2.1 profiles).1.updated =
        (fetch_and_store_tokens cfg orc db profiles).1.stored +
          (fetch_and_store_tokens cfg orc db profiles).1.updated ∧
      (fetch_and_store_tokens cfg orc
          (fetch_and_store_tokens cfg orc db profiles).2.1 profiles).1.filtered =
        (fetch_and_store_tokens cfg orc db profiles).1.filtered ∧
      (fetch_and_store_tokens cfg orc
          (fetch_and_store_tokens cfg orc db profiles).2.1 profiles).1.processed =
        (fetch_and_store_tokens cfg orc db profiles).1.processed := by
  intro cfg orc db profiles
  have hsettled : ∀ p ∈ profiles,
      settledFor cfg orc (fetch_and_store_tokens cfg orc db profiles).2.1 p := by
    intro p hp
    unfold fetch_and_store_tokens
    exact run_settles profiles cfg orc _ p (Or.inl hp)
  obtain ⟨h1, h2, h3, h4, h5, h6⟩ :=
    run_on_settled profiles cfg orc {} (fetch_and_store_tokens cfg orc db profiles).2.1 []
      hsettled
  obtain ⟨g1, g2, g3⟩ := run_counters profiles cfg orc
    (({} : CycleCounters), db, ([] : List NewTokenAlert))
  unfold fetch_and_store_tokens at h1 h2 h3 h4 h5 h6 ⊢
  dsimp only at h3 h4 h5 h6 g1 g2 g3
  refine ⟨h1, h2, h3, ?_, ?_, ?_⟩
  · omega
  · omega
  · omega

/-- Helper: membership in a stable descending insertion. -/
theorem insertDesc_mem (e x : PumpedEntry) :
    ∀ l : List PumpedEntry, x ∈ insertDesc e l ↔ x = e ∨ x ∈ l := by
  intro l
  induction l with
  | nil => simp [insertDesc]
  | cons a rest ih =>
    unfold insertDesc
    by_cases h : a.price_change_percent ≤ e.price_change_percent
    · simp [h]
    · simp only [h, if_false, List.mem_cons, ih]
      tauto

/-- Helper: the descending sort is a permutation membership-wise. -/
theorem sortByChangeDesc_mem (x : PumpedEntry) :
    ∀ l : List PumpedEntry, x ∈ sortByChangeDesc l ↔ x ∈ l := by
  intro l
  induction l with
  | nil => simp [sortByChangeDesc]
  | cons a rest ih =>
    unfold sortByChangeDesc at ih ⊢
    rw [List.foldr_cons, insertDesc_mem, ih, List.mem_cons]

/-- Helper: inserting preserves the descending chain. -/
theorem insertDesc_chain (e : PumpedEntry) :
    ∀ l : List PumpedEntry,
      List.Chain' (fun a b => b.price_change_percent ≤ a.price_change_percent) l →
      List.Chain' (fun a b => b.price_change_percent ≤ a.price_change_percent)
        (insertDesc e l) := by
  intro l
  induction l with
  | nil => intro _; simp [insertDesc]
  | cons a rest ih =>
    intro hc
    unfold insertDesc
    by_cases h : a.price_change_percent ≤ e.price_change_percent
    · simp only [h, if_true]
      exact List.Chain'.cons h hc
    · simp only [h, if_false]
      have hrest := (List.chain'_cons'.mp hc).2
      have hhead := (List.chain'_cons'.mp hc).1
      refine List.chain'_cons'.mpr ⟨?_, ih hrest⟩
      intro y hy
      cases rest with
      | nil =>
        simp [insertDesc] at hy
        rw [← hy]
        exact le_of_lt (lt_of_not_le h)
      | cons b rest2 =>
        unfold insertDesc at hy
        by_cases h2 : b.price_change_percent ≤ e.price_change_percent
        · simp only [h2, if_true, List.head?_cons, Option.mem_def, Option.some.injEq] at hy
          rw [← hy]
          exact le_of_lt (lt_of_not_le h)
        · simp only [h2, if_false, List.head?_cons, Option.mem_def, Option.some.injEq] at hy
          rw [← hy]
          exact hhead b rfl

/-- Helper: the output of the descending sort is descending. -/
theorem sortByChangeDesc_chain :
    ∀ l : List PumpedEntry,
      List.Chain' (fun a b => b.price_change_percent ≤ a.price_change_percent)
        (sortByChangeDesc l) := by
  intro l
  induction l with
  | nil => simp [sortByChangeDesc]
  | cons a rest ih =>
    unfold sortByChangeDesc at ih ⊢
    rw [List.foldr_cons]
    exact insertDesc_chain a _ ih

/-- Helper: the key-collection step preserves membership and adds the
visited address. -/
theorem groupKeysStep_mem (ks : List String) (s : SnapshotRec) (a : String) :
    a ∈ ks ∨ a = s.token_address → a ∈ groupKeysStep ks s := by
  intro h
  unfold groupKeysStep
  by_cases hm : s.token_address ∈ ks
  · simp only [hm, if_true]
    rcases h with h | h
    · exact h
    · rw [h]; exact hm
  · simp only [hm, if_false]
    rcases h with h | h
    · exact List.mem_append_left _ h
    · rw [h]; exact List.mem_append_right _ (List.mem_singleton_self _)

/-- Helper: every snapshot contributes its address to the dict keys. -/
theorem mem_groupKeys_of_mem :
    ∀ (snaps : List SnapshotRec) (init : List String) (a : String),
      (a ∈ init ∨ ∃ s ∈ snaps, s.token_address = a) →
      a ∈ snaps.foldl groupKeysStep init := by
  intro snaps
  induction snaps with
  | nil =>
    intro init a h
    rcases h with h | ⟨s, hs, _⟩
    · exact h
    · simp at hs
  | cons s rest ih =>
    intro init a h
    rw [List.foldl_cons]
    rcases h with h | ⟨t, ht, hta⟩
    · exact ih _ a (Or.inl (groupKeysStep_mem init s a (Or.inl h)))
    · rcases List.mem_cons.mp ht with rfl | ht2
      · exact ih _ a (Or.inl (groupKeysStep_mem init t a (Or.inr hta.symm)))
      · exact ih _ a (Or.inr ⟨t, ht2, hta⟩)

/-- Helper: Python truthiness of a nullable float, unfolded. -/
theorem qTruthy_iff (o : Option ℚ) : qTruthy o = true ↔ ∃ q, o = some q ∧ q ≠ 0 := by
  cases o <;> simp [qTruthy]

/-- Helper: inversion of the per-token analysis body — a produced entry
records exactly the first/last comparison of its history. -/
theorem entryOfHistory_some_inv :
    ∀ (t : String) (hist : List SnapshotRec) (minI minV : ℚ) (e : PumpedEntry),
      entryOfHistory t hist minI minV = some e →
      2 ≤ hist.length ∧
      ∃ first lastS fp lp lv,
        hist.head? = some first ∧ hist.getLast? = some lastS ∧
        first.price_usd = some fp ∧ fp ≠ 0 ∧
        lastS.price_usd = some lp ∧ lp ≠ 0 ∧
        lastS.volume_usd = some lv ∧ lv ≠ 0 ∧
        minI ≤ (lp - fp) / fp * 100 ∧ minV ≤ lv ∧
        e = { token_address := t, chain_id := lastS.chain_id, initial_price := fp,
              current_price := lp, price_change_percent := (lp - fp) / fp * 100,
              volume_usd := lv } := by
  intro t hist minI minV e h
  unfold entryOfHistory at h
  split at h
  · exact absurd h (by simp)
  · rename_i hlen
    refine ⟨not_lt.mp hlen, ?_⟩
    split at h
    · rename_i first lastS hh hl
      split at h
      · rename_i htr
        simp only [Bool.and_eq_true] at htr
        obtain ⟨⟨htr1, htr2⟩, htr3⟩ := htr
        obtain ⟨fp, hfp, hfp0⟩ := (qTruthy_iff _).mp htr1
        obtain ⟨lp, hlp, hlp0⟩ := (qTruthy_iff _).mp htr2
        obtain ⟨lv, hlv, hlv0⟩ := (qTruthy_iff _).mp htr3
        rw [hfp, hlp, hlv] at h
        simp only [Option.getD_some] at h
        split at h
        · rename_i hcond
          simp only [Bool.and_eq_true] at hcond
          obtain ⟨hc1, hc2⟩ := hcond
          refine ⟨first, lastS, fp, lp, lv, hh, hl, hfp, hfp0, hlp, hlp0, hlv, hlv0,
            of_decide_eq_true hc1, of_decide_eq_true hc2, ?_⟩
          injection h with h
          exact h.symm
        · exact absurd h (by simp)
      · exact absurd h (by simp)
    · exact absurd h (by simp)

/-- Helper: construction of the per-token analysis body — a qualifying
first/last comparison produces its entry. -/
theorem entryOfHistory_some_of :
    ∀ (t : String) (hist : List SnapshotRec) (minI minV : ℚ)
      (first lastS : SnapshotRec) (fp lp lv : ℚ),
      2 ≤ hist.length → hist.head? = some first → hist.getLast? = some lastS →
      first.price_usd = some fp → fp ≠ 0 → lastS.price_usd = some lp → lp ≠ 0 →
      lastS.volume_usd = some lv → lv ≠ 0 →
      minI ≤ (lp - fp) / fp * 100 → minV ≤ lv →
      entryOfHistory t hist minI minV =
        some { token_address := t, chain_id := lastS.chain_id, initial_price := fp,
               current_price := lp, price_change_percent := (lp - fp) / fp * 100,
               volume_usd := lv } := by
  intro t hist minI minV first lastS fp lp lv hlen hh hl hfp hfp0 hlp hlp0 hlv hlv0 hmi hmv
  unfold entryOfHistory
  rw [if_neg (not_lt.mpr hlen), hh, hl]
  dsimp only
  rw [hfp, hlp, hlv]
  simp only [qTruthy, Option.getD_some]
  simp [hfp0, hlp0, hlv0, hmi, hmv]

/-- Helper: membership in the analysis output, unfolded to the grouping
dict and the per-token body. -/
theorem analyze_mem_iff :
    ∀ (snaps : List SnapshotRec) (minI minV : ℚ) (e : PumpedEntry),
      e ∈ analyze_pumped_tokens snaps minI minV ↔
      ∃ t ∈ groupKeys snaps, entryOfHistory t (groupFor snaps t) minI minV = some e := by
  intro snaps minI minV e
  unfold analyze_pumped_tokens
  rw [sortByChangeDesc_mem, List.mem_filterMap]

/-- C5: counterexample.  A history whose chronologically first price is
negative (−1, hence ≤ 0) is not skipped: with prices −1 → −2 the computed
change is +100% and the asset is flagged, refuting the claimed "skip if
first.price ≤ 0" (the source skips only on missing or exactly-zero
values, Python falsiness). -/
theorem C5_counterexample :
    (groupFor
        [{ token_address := "neg", chain_id := "solana", price_usd := some (-1),
           volume_usd := some 2000, timestamp := 0 },
         { token_address := "neg", chain_id := "solana", price_usd := some (-2),
           volume_usd := some 2000, timestamp := 1 }] "neg").head? =
      some { token_address := "neg", chain_id := "solana", price_usd := some (-1),
             volume_usd := some 2000, timestamp := 0 } ∧
    (-1 : ℚ) ≤ 0 ∧
    analyze_pumped_tokens
        [{ token_address := "neg", chain_id := "solana", price_usd := some (-1),
           volume_usd := some 2000, timestamp := 0 },
         { token_address := "neg", chain_id := "solana", price_usd := some (-2),
           volume_usd := some 2000, timestamp := 1 }] 50 1000 ≠ [] :=
  of_decide_eq_true (by with_unfolding_all rfl)

/-- C5 (amended): on the timestamp-ordered windowed snapshots the trend
detector compares, per address group, the chronologically first and last
observations; an asset is flagged exactly when first.price, last.price and
last.volume are all present and non-zero (a negative first price is not
skipped), the percent change (last.price − first.price) / first.price * 100
reaches the threshold, and last.volume reaches the volume floor; the
output is sorted by percent change descending. -/
theorem C5_trend_detector_first_last :
    ∀ (snaps : List SnapshotRec) (minInc minVol : ℚ),
      List.Chain' (fun a b => b.price_change_percent ≤ a.price_change_percent)
        (analyze_pumped_tokens snaps minInc minVol) ∧
      (∀ e ∈ analyze_pumped_tokens snaps minInc minVol,
        ∃ first lastS fp lp lv,
          (groupFor snaps e.token_address).head? = some first ∧
          (groupFor snaps e.token_address).getLast? = some lastS ∧
          2 ≤ (groupFor snaps e.token_address).length ∧
          first.price_usd = some fp ∧ fp ≠ 0 ∧
          lastS.price_usd = some lp ∧ lp ≠ 0 ∧
          lastS.volume_usd = some lv ∧ lv ≠ 0 ∧
          e.price_change_percent = (lp - fp) / fp * 100 ∧
          e.initial_price = fp ∧ e.current_price = lp ∧ e.volume_usd = lv ∧
          minInc ≤ e.price_change_percent ∧ minVol ≤ lv) ∧
      (∀ s ∈ snaps, ∀ (first lastS : SnapshotRec) (fp lp lv : ℚ),
        (groupFor snaps s.token_address).head? = some first →
        (groupFor snaps s.token_address).getLast? = some lastS →
        2 ≤ (groupFor snaps s.token_address).length →
        first.price_usd = some fp → fp ≠ 0 →
        lastS.price_usd = some lp → lp ≠ 0 →
        lastS.volume_usd = some lv → lv ≠ 0 →
        minInc ≤ (lp - fp) / fp * 100 → minVol ≤ lv →
        ∃ e ∈ analyze_pumped_tokens snaps minInc minVol,
          e.token_address = s.token_address ∧
          e.price_change_percent = (lp - fp) / fp * 100) := by
  intro snaps minInc minVol
  refine ⟨?_, ?_, ?_⟩
  · unfold analyze_pumped_tokens
    exact sortByChangeDesc_chain _
  · intro e he
    obtain ⟨t, ht, heq⟩ := (analyze_mem_iff snaps minInc minVol e).mp he
    obtain ⟨hlen, first, lastS, fp, lp, lv, hh, hl, hfp, hfp0, hlp, hlp0, hlv, hlv0,
      hmi, hmv, hee⟩ := entryOfHistory_some_inv t _ minInc minVol e heq
    subst hee
    exact ⟨first, lastS, fp, lp, lv, hh, hl, hlen, hfp, hfp0, hlp, hlp0, hlv, hlv0,
      rfl, rfl, rfl, rfl, hmi, hmv⟩
  · intro s hs first lastS fp lp lv hh hl hlen hfp hfp0 hlp hlp0 hlv hlv0 hmi hmv
    have ht : s.token_address ∈ groupKeys snaps := by
      unfold groupKeys
      exact mem_groupKeys_of_mem snaps [] s.token_address (Or.inr ⟨s, hs, rfl⟩)
    have heq := entryOfHistory_some_of s.token_address (groupFor snaps s.token_address)
      minInc minVol first lastS fp lp lv hlen hh hl hfp hfp0 hlp hlp0 hlv hlv0 hmi hmv
    exact ⟨_, (analyze_mem_iff snaps minInc minVol _).mpr ⟨s.token_address, ht, heq⟩,
      rfl, rfl⟩

/-- C5 witness: the specification example — prices 1.00 then 1.60 within
the window with volume 2000, thresholds 50% and $1000 — yields a flagged
entry for the asset with a +60% change. -/
theorem C5_trend_detector_witness :
    ∃ e ∈ analyze_pumped_tokens
        [{ token_address := "pump", chain_id := "solana", price_usd := some 1,
           volume_usd := some 2000, timestamp := 0 },
         { token_address := "pump", chain_id := "solana", price_usd := some (8/5),
           volume_usd := some 2000, timestamp := 60 }] 50 1000,
      e.token_address = "pump" ∧ e.price_change_percent = (8/5 - 1) / 1 * 100 := by
  have h := (C5_trend_detector_first_last
      [{ token_address := "pump", chain_id := "solana", price_usd := some 1,
         volume_usd := some 2000, timestamp := 0 },
       { token_address := "pump", chain_id := "solana", price_usd := some (8/5),
         volume_usd := some 2000, timestamp := 60 }] 50 1000).2.2
    { token_address := "pump", chain_id := "solana", price_usd := some 1,
      volume_usd := some 2000, timestamp := 0 }
    (by simp)
    { token_address := "pump", chain_id := "solana", price_usd := some 1,
      volume_usd := some 2000, timestamp := 0 }
    { token_address := "pump", chain_id := "solana", price_usd := some (8/5),
      volume_usd := some 2000, timestamp := 60 }
    1 (8/5) 2000
    (of_decide_eq_true (by with_unfolding_all rfl))
    (of_decide_eq_true (by with_unfolding_all rfl))
    (of_decide_eq_true (by with_unfolding_all rfl))
    rfl one_ne_zero rfl (by norm_num) rfl (by norm_num)
    (by norm_num) (by norm_num)
  exact h

/-- C6: counterexample.  Two snapshots that share a `token_address` but
live on different chains are merged into one group: the detector computes
a cross-chain delta and flags the asset, refuting the claim that the
grouping key is the full (chain_id, token_address) identity (under which
each group would have a single observation and be skipped). -/
theorem C6_counterexample :
    ("solana" : String) ≠ "ethereum" ∧
    analyze_pumped_tokens
        [{ token_address := "X", chain_id := "solana", price_usd := some 1,
           volume_usd := some 2000, timestamp := 0 },
         { token_address := "X", chain_id := "ethereum", price_usd := some 2,
           volume_usd := some 2000, timestamp := 1 }] 50 1000 ≠ [] :=
  of_decide_eq_true (by with_unfolding_all rfl)

/-- C6 (amended): the trend detector groups the windowed snapshots by
`token_address` alone — any two snapshots with the same address fall into
the same group regardless of chain — and an address with fewer than two
observations in the window is never flagged. -/
theorem C6_group_by_address_min_two :
    ∀ (snaps : List SnapshotRec) (minInc minVol : ℚ),
      (∀ s ∈ snaps, ∀ t ∈ snaps, s.token_address = t.token_address →
        t ∈ groupFor snaps s.token_address) ∧
      (∀ e ∈ analyze_pumped_tokens snaps minInc minVol,
        2 ≤ (groupFor snaps e.token_address).length) := by
  intro snaps minInc minVol
  constructor
  · intro s _ t ht heq
    unfold groupFor
    refine List.mem_filter.mpr ⟨ht, ?_⟩
    rw [heq]
    simp
  · intro e he
    obtain ⟨t, ht, heq⟩ := (analyze_mem_iff snaps minInc minVol e).mp he
    obtain ⟨hlen, _, _, _, _, _, _, _, _, _, _, _, _, _, _, _, hee⟩ :=
      entryOfHistory_some_inv t _ minInc minVol e heq
    subst hee
    exact hlen

/-- C6 witness: two snapshots of one address on one chain form a
two-element group containing both. -/
theorem C6_group_by_address_witness :
    ({ token_address := "Y", chain_id := "solana", price_usd := some 2,
       volume_usd := some 5, timestamp := 1 } : SnapshotRec) ∈
      groupFor
        [{ token_address := "Y", chain_id := "solana", price_usd := some 1,
           volume_usd := some 5, timestamp := 0 },
         { token_address := "Y", chain_id := "solana", price_usd := some 2,
           volume_usd := some 5, timestamp := 1 }]
        ({ token_address := "Y", chain_id := "solana", price_usd := some 1,
           volume_usd := some 5, timestamp := 0 } : SnapshotRec).token_address :=
  (C6_group_by_address_min_two
      [{ token_address := "Y", chain_id := "solana", price_usd := some 1,
         volume_usd := some 5, timestamp := 0 },
       { token_address := "Y", chain_id := "solana", price_usd := some 2,
         volume_usd := some 5, timestamp := 1 }] 50 1000).1
    { token_address := "Y", chain_id := "solana", price_usd := some 1,
      volume_usd := some 5, timestamp := 0 } (by simp)
    { token_address := "Y", chain_id := "solana", price_usd := some 2,
      volume_usd := some 5, timestamp := 1 } (by simp) rfl

/-- C1 witness: in a cycle where neither sub-task fails, the pipeline
sub-task was attempted (and so was the trend detector). -/
theorem C1_pipeline_first_witness :
    SubTask.fetchAndStore ∈ (run_cycle { fetchFails := false, analysisFails := true }).1 :=
  (C1_pipeline_failure_skips_trend_detector
    { fetchFails := false, analysisFails := true }).1

/-- C7 witness: one profile accepted and stored by a first run is not
stored again by a second run over the unchanged feed. -/
theorem C7_second_run_witness :
    (fetch_and_store_tokens {}
        { pairsFor := fun _ _ =>
            [{ liquidityUsd := some 7, priceUsd := some (.num 2), volumeH24 := some 3 }],
          riskScore := fun _ => some 100, now := 5 }
        (fetch_and_store_tokens {}
          { pairsFor := fun _ _ =>
              [{ liquidityUsd := some 7, priceUsd := some (.num 2), volumeH24 := some 3 }],
            riskScore := fun _ => some 100, now := 5 }
          [] [{ token_address := "addr", chain_id := "solana" }]).2.1
        [{ token_address := "addr", chain_id := "solana" }]).1.stored = 0 :=
  (C7_second_run_idempotent {}
    { pairsFor := fun _ _ =>
        [{ liquidityUsd := some 7, priceUsd := some (.num 2), volumeH24 := some 3 }],
      riskScore := fun _ => some 100, now := 5 }
    [] [{ token_address := "addr", chain_id := "solana" }]).2.2.1

/-- C10 witness: the counter balance at a concrete single-profile run. -/
theorem C10_counters_witness :
    (fetch_and_store_tokens {}
        { pairsFor := fun _ _ => [], riskScore := fun _ => some 0, now := 0 }
        [] [{ token_address := "addr", chain_id := "solana" }]).1.processed =
      (fetch_and_store_tokens {}
          { pairsFor := fun _ _ => [], riskScore := fun _ => some 0, now := 0 }
          [] [{ token_address := "addr", chain_id := "solana" }]).1.filtered +
        (fetch_and_store_tokens {}
            { pairsFor := fun _ _ => [], riskScore := fun _ => some 0, now := 0 }
            [] [{ token_address := "addr", chain_id := "solana" }]).1.stored +
        (fetch_and_store_tokens {}
            { pairsFor := fun _ _ => [], riskScore := fun _ => some 0, now := 0 }
            [] [{ token_address := "addr", chain_id := "solana" }]).1.updated :=
  C10_counters_partition {}
    { pairsFor := fun _ _ => [], riskScore := fun _ => some 0, now := 0 }
    [] [{ token_address := "addr", chain_id := "solana" }]
